import Mathlib

/-!
A shallow embedding of the splatbin upload-lifecycle core (src/server.js,
which contains two concatenated variants of the server) together with
theorems settling the specification's claims about it.

Conventions of the embedding:
* timestamps are integers (milliseconds since the epoch, as in JS `Date.getTime()`);
* the random source of an identifier generator is passed in explicitly as a
  stream (`Nat → Fin 256` for `crypto.randomBytes`, `Nat → Fin 36` for
  `Math.random`-based indexing);
* the SQLite database is a list of rows, the uploads directory is a list of
  `(filename, content)` pairs;
* fallible operations return explicit result values.
-/

namespace Splatbin

/-! ## Identifier Generator (src/server.js lines 8-15 and 520-527) -/

/-- The lowercase hex digits, as produced by `Buffer.toString('hex')`. -/
def hexDigits : List Char := "0123456789abcdef".data

/-- One byte rendered as two lowercase hex characters, as
`crypto.randomBytes(1).toString('hex')` renders it (zero-padded). -/
def byteToHex (b : Fin 256) : List Char :=
  [hexDigits.getD (b.val / 16) '0', hexDigits.getD (b.val % 16) '0']

/-- First variant's `generateShortId` (lines 8-15): six iterations of
`result += crypto.randomBytes(1).toString('hex')`.  The declared `chars`
constant of that variant is unused by the code, exactly as in the source.
`bytes` is the stream of random bytes consumed by the loop. -/
def generateShortIdV1 (bytes : Nat → Fin 256) : String :=
  ⟨((List.range 6).map (fun i => byteToHex (bytes i))).flatten⟩

/-- The alphabet `'abcdefghijklmnopqrstuvwxyz0123456789'` of both variants. -/
def chars36 : List Char := "abcdefghijklmnopqrstuvwxyz0123456789".data

/-- Second variant's `generateShortId` (lines 520-527): eight iterations of
`result += chars.charAt(Math.floor(Math.random() * chars.length))`; `rand`
is the stream of random indices below `chars.length = 36`. -/
def generateShortIdV2 (rand : Nat → Fin 36) : String :=
  ⟨(List.range 8).map (fun i => chars36.getD (rand i) 'a')⟩

/-! ## Expiration Policy (src/server.js lines 123-152 and 635-647) -/

/-- The `[expiry]` section of config.toml: `max_hours` (-1 meaning unlimited)
and `allow_everlasting`. -/
structure ExpiryConfig where
  max_hours : Int
  allow_everlasting : Bool
deriving DecidableEq

/-- Milliseconds per hour, the `60 * 60 * 1000` factor of the source. -/
def msPerHour : Int := 60 * 60 * 1000

/-- First variant's `parseExpirationHours` (lines 123-152).  The input is the
already-parsed `parseInt(hoursInput)`: `none` stands for a missing field or a
`NaN` parse, both of which return `null` in the source.  Returns the absolute
expiry timestamp, `none` meaning "never expires". -/
def parseExpirationHoursV1 (cfg : ExpiryConfig) (now : Int) (hoursInput : Option Int) :
    Option Int :=
  match hoursInput with
  | none => none
  | some hours =>
    if hours ≤ 0 then none
    else if (hours = -1 ∨ hours = 0) ∧ cfg.allow_everlasting then none
    else if (hours = -1 ∨ hours = 0) ∧ ¬cfg.allow_everlasting then
      if cfg.max_hours = -1 then none
      else some (now + cfg.max_hours * msPerHour)
    else
      let actualHours := if cfg.max_hours = -1 then hours else min hours cfg.max_hours
      some (now + actualHours * msPerHour)

/-- Second variant's `parseExpirationHours` (lines 635-647), which has no
everlasting branch at all. -/
def parseExpirationHoursV2 (maxHours : Int) (now : Int) (hoursInput : Option Int) :
    Option Int :=
  match hoursInput with
  | none => none
  | some hours =>
    if hours ≤ 0 then none
    else
      let actualHours := if maxHours = -1 then hours else min hours maxHours
      some (now + actualHours * msPerHour)

/-- `isExpired` (lines 155-158 and 650-653): expired iff `expires_at` is
present and ≤ now. -/
def isExpired (now : Int) (expiresAt : Option Int) : Bool :=
  match expiresAt with
  | none => false
  | some t => decide (t ≤ now)

/-! ## Claim theorems about the generator and the policy -/

/-- C5: the spec claims `generate()` returns a fixed-length-8 string over
`a-z0-9`.  The first variant's `generateShortId` in fact returns a
12-character string (six random bytes, two hex characters each), contradicting
the function's own `(8 characters)` comment and the README's
"8-character readable IDs"; at the all-zero byte stream it returns
`"000000000000"`.  The second variant does return 8 characters drawn from
the 36-character alphabet. -/
theorem C5_generator_length :
    (∀ bytes : Nat → Fin 256, (generateShortIdV1 bytes).length = 12) ∧
    generateShortIdV1 (fun _ => (0 : Fin 256)) = "000000000000" ∧
    (∀ rand : Nat → Fin 36, (generateShortIdV2 rand).length = 8 ∧
      ∀ c ∈ (generateShortIdV2 rand).data, c ∈ chars36) := by
  refine ⟨?_, by decide, ?_⟩
  · intro bytes
    show ((((List.range 6).map (fun i => byteToHex (bytes i))).flatten).length) = 12
    rw [show List.range 6 = [0, 1, 2, 3, 4, 5] from rfl]
    simp [byteToHex]
  · intro rand
    constructor
    · show (((List.range 8).map (fun i => chars36.getD (rand i) 'a')).length) = 8
      simp
    · intro c hc
      simp only [generateShortIdV2] at hc
      rcases List.mem_map.mp hc with ⟨i, _, rfl⟩
      have hlt : (rand i).val < chars36.length := by
        have := (rand i).isLt
        simp [chars36]
      rw [List.getD_eq_getElem?_getD, List.getElem?_eq_getElem hlt]
      exact List.getElem_mem hlt

/-- C2: the spec claims that for an hours hint in `{0, -1}` with
`allow_everlasting = false` and finite maximum `M = 168` the policy returns
`now + M` hours.  In the code, the guard `hours <= 0` returns `null` before
the everlasting-fallback branch (whose own comment says "use max_hours
instead") can run, so both variants return "never expires" instead. -/
theorem C2_everlasting_clamp_dead :
    (∀ now : Int, parseExpirationHoursV1 ⟨168, false⟩ now (some 0) = none) ∧
    (∀ now : Int, parseExpirationHoursV1 ⟨168, false⟩ now (some (-1)) = none) ∧
    (∀ now : Int, parseExpirationHoursV2 168 now (some 0) = none) ∧
    (∀ now : Int, parseExpirationHoursV2 168 now (some (-1)) = none) := by
  refine ⟨fun now => ?_, fun now => ?_, fun now => ?_, fun now => ?_⟩ <;>
    simp [parseExpirationHoursV1, parseExpirationHoursV2]

/-- C3: for every hours hint `h > 0` and finite server maximum (`max_hours ≠
-1`), both variants of the policy return exactly `now + min h max_hours`
hours. -/
theorem C3_hours_clamped_to_max (cfg : ExpiryConfig) (now h : Int)
    (h1 : 0 < h) (h2 : cfg.max_hours ≠ -1) :
    parseExpirationHoursV1 cfg now (some h)
        = some (now + min h cfg.max_hours * msPerHour) ∧
    parseExpirationHoursV2 cfg.max_hours now (some h)
        = some (now + min h cfg.max_hours * msPerHour) := by
  have hn : ¬h ≤ 0 := by omega
  have hne : ¬(h = -1 ∨ h = 0) := by rintro (rfl | rfl) <;> omega
  constructor
  · simp only [parseExpirationHoursV1, if_neg hn]
    rw [if_neg (by tauto), if_neg (by tauto), if_neg h2]
  · simp only [parseExpirationHoursV2, if_neg hn]
    rw [if_neg h2]

/-- Witness for C3 at the spec's own scenario: `expires_hours = 500` with
server maximum 168 is clamped to `now + 168` hours. -/
theorem C3_hours_clamped_to_max_witness :
    parseExpirationHoursV1 ⟨168, true⟩ 0 (some 500)
        = some (0 + min 500 168 * msPerHour) ∧
    parseExpirationHoursV2 168 0 (some 500)
        = some (0 + min 500 168 * msPerHour) :=
  C3_hours_clamped_to_max ⟨168, true⟩ 0 500 (by decide) (by decide)

/-! ## Filename helpers

`path.extname`, `path.parse(..).name`, JS `String.trim` and the `a || b`
idiom on strings, as used by the upload handlers. -/

/-- The suffix of a character list starting at its last `'.'`, if any.
`lastDotSuffix "a.b.c".data = some ".c".data`. -/
def lastDotSuffix : List Char → Option (List Char)
  | [] => none
  | c :: rest =>
    match lastDotSuffix rest with
    | some e => some e
    | none => if c = '.' then some (c :: rest) else none

/-- Node's `path.extname` for a bare filename (no directory separators): the
substring from the last dot to the end, or `""` when there is no dot or the
only dot opens the name (a dotfile such as `.bashrc` has no extension). -/
def extname (s : String) : String :=
  match lastDotSuffix s.data with
  | none => ""
  | some e => if e.length = s.data.length then "" else ⟨e⟩

/-- Node's `path.parse(s).name` for a bare filename: the filename with its
`extname` removed. -/
def parseName (s : String) : String :=
  ⟨s.data.take (s.data.length - (extname s).data.length)⟩

/-- An ASCII whitespace test standing for the character class JS
`String.prototype.trim` removes. -/
def isWs (c : Char) : Bool := c = ' ' ∨ c = '\t' ∨ c = '\n' ∨ c = '\r'

/-- JS `s.trim()`: strip whitespace from both ends. -/
def jsTrim (s : String) : String :=
  ⟨((s.data.dropWhile isWs).reverse.dropWhile isWs).reverse⟩

/-- The JS idiom `a || b` on an optional string field: the fallback is used
when the field is absent or is the (falsy) empty string. -/
def orElseStr (a : Option String) (b : String) : String :=
  match a with
  | none => b
  | some s => if s = "" then b else s

/-- `a.startsWith(b)` on the character lists. -/
def strStarts (pre s : String) : Bool := pre.data.isPrefixOf s.data

/-- `s.toLowerCase()`, character by character. -/
def toLowerStr (s : String) : String := ⟨s.data.map Char.toLower⟩

/-- The `textTypes` MIME prefixes of `isTextFile` (lines 70-76). -/
def textTypes : List String :=
  ["text/", "application/json", "application/xml", "application/javascript",
   "application/typescript"]

/-- The `textExtensions` list of `isTextFile` (lines 78-83). -/
def textExtensions : List String :=
  [".txt", ".md", ".js", ".ts", ".json", ".xml", ".html", ".css",
   ".py", ".java", ".c", ".cpp", ".h", ".hpp", ".rb", ".php", ".go",
   ".rs", ".sh", ".bat", ".yml", ".yaml", ".toml", ".ini", ".cfg",
   ".log", ".sql", ".r", ".m", ".swift", ".kt", ".scala", ".clj"]

/-- `isTextFile(mimetype, filename)` (lines 69-91, identical in both
variants): a MIME-prefix match or a known text extension. -/
def isTextFile (mimetype filename : String) : Bool :=
  if textTypes.any (fun t => strStarts t mimetype) then true
  else textExtensions.contains (toLowerStr (extname filename))

/-! ### Lemmas about `extname` and `parseName` -/

theorem data_mk (l : List Char) : (⟨l⟩ : String).data = l := rfl

theorem mk_data (s : String) : (⟨s.data⟩ : String) = s := rfl

theorem data_append (a b : String) : (a ++ b).data = a.data ++ b.data := rfl

theorem data_empty : ("" : String).data = ([] : List Char) := rfl

theorem lastDotSuffix_cons (c : Char) (rest : List Char) :
    lastDotSuffix (c :: rest)
      = match lastDotSuffix rest with
        | some e => some e
        | none => if c = '.' then some (c :: rest) else none := rfl

theorem lastDotSuffix_eq_none_iff (cs : List Char) :
    lastDotSuffix cs = none ↔ ('.' : Char) ∉ cs := by
  induction cs with
  | nil => simp [lastDotSuffix]
  | cons c rest ih =>
    rw [lastDotSuffix_cons]
    cases h : lastDotSuffix rest with
    | some e =>
      constructor
      · intro hcontra; exact absurd hcontra (by simp)
      · intro hnot
        have hn : lastDotSuffix rest = none :=
          ih.mpr (fun hm => hnot (List.mem_cons_of_mem c hm))
        rw [h] at hn
        exact absurd hn (by simp)
    | none =>
      have hrest : ('.' : Char) ∉ rest := ih.mp h
      by_cases hc : c = '.'
      · subst hc
        rw [if_pos rfl]
        constructor
        · intro hcontra; exact absurd hcontra (by simp)
        · intro hnot; exact absurd (List.mem_cons_self _ _) hnot
      · rw [if_neg hc]
        constructor
        · intro _ hmem
          rcases List.mem_cons.mp hmem with h1 | h1
          · exact hc h1.symm
          · exact hrest h1
        · intro _; rfl

theorem lastDotSuffix_of_dotless_tail (t : List Char) (h : ('.' : Char) ∉ t) :
    lastDotSuffix ('.' :: t) = some ('.' :: t) := by
  rw [lastDotSuffix_cons, (lastDotSuffix_eq_none_iff t).mpr h]
  simp

theorem lastDotSuffix_append (xs ys : List Char) :
    lastDotSuffix (xs ++ ys)
      = match lastDotSuffix ys with
        | some e => some e
        | none => (lastDotSuffix xs).map (· ++ ys) := by
  induction xs with
  | nil =>
    rw [List.nil_append]
    cases h : lastDotSuffix ys with
    | some e => rfl
    | none => rfl
  | cons c xs ih =>
    rw [List.cons_append, lastDotSuffix_cons c (xs ++ ys),
      lastDotSuffix_cons c xs, ih]
    cases h : lastDotSuffix ys with
    | some e => rfl
    | none =>
      cases h2 : lastDotSuffix xs with
      | some e2 => rfl
      | none => by_cases hc : c = '.' <;> simp [hc]

theorem lastDotSuffix_shape (cs : List Char) (e : List Char)
    (h : lastDotSuffix cs = some e) :
    ∃ t, e = '.' :: t ∧ ('.' : Char) ∉ t := by
  induction cs with
  | nil => exact absurd h (by simp [lastDotSuffix])
  | cons c rest ih =>
    rw [lastDotSuffix_cons] at h
    cases h2 : lastDotSuffix rest with
    | some e2 =>
      rw [h2] at h
      injection h with h
      subst h
      exact ih h2
    | none =>
      rw [h2] at h
      by_cases hc : c = '.'
      · rw [if_pos hc] at h
        injection h with h
        subst hc
        exact ⟨rest, h.symm, (lastDotSuffix_eq_none_iff rest).mp h2⟩
      · rw [if_neg hc] at h; exact absurd h (by simp)

/-- The shape of any `extname` result: empty, or a dot followed by a dotless
tail. -/
theorem extname_shape (s : String) :
    extname s = "" ∨ ∃ t, (extname s).data = '.' :: t ∧ ('.' : Char) ∉ t := by
  unfold extname
  cases h : lastDotSuffix s.data with
  | none => exact Or.inl rfl
  | some e =>
    rcases lastDotSuffix_shape s.data e h with ⟨t, rfl, ht⟩
    by_cases hl : (('.' :: t) : List Char).length = s.data.length
    · left
      show (if (('.' :: t) : List Char).length = s.data.length
          then ("" : String) else ⟨'.' :: t⟩) = ""
      rw [if_pos hl]
    · right
      refine ⟨t, ?_, ht⟩
      show (if (('.' :: t) : List Char).length = s.data.length
          then ("" : String) else ⟨'.' :: t⟩).data = '.' :: t
      rw [if_neg hl]

/-- For a fresh dotless nonempty identifier `fid` and an extension `ext` of
`extname` shape, `extname (fid ++ ext) = ext` and
`parseName (fid ++ ext) = fid`: splitting the multer disk filename
`generateShortId() + path.extname(originalname)` back apart with
`path.parse(..).name` recovers the identifier. -/
theorem extname_parseName_append (fid ext : String)
    (h1 : ('.' : Char) ∉ fid.data) (h2 : fid.data ≠ [])
    (h3 : ext = "" ∨ ∃ t, ext.data = '.' :: t ∧ ('.' : Char) ∉ t) :
    extname (fid ++ ext) = ext ∧ parseName (fid ++ ext) = fid := by
  rcases h3 with rfl | ⟨t, he, ht⟩
  · have hnone : lastDotSuffix (fid ++ "").data = none := by
      rw [data_append, data_empty, List.append_nil]
      exact (lastDotSuffix_eq_none_iff fid.data).mpr h1
    have hA : extname (fid ++ "") = "" := by
      unfold extname; rw [hnone]
    refine ⟨hA, ?_⟩
    unfold parseName
    rw [hA, data_append, data_empty, List.append_nil, List.length_nil,
      Nat.sub_zero, List.take_length, mk_data]
  · have hsuf : lastDotSuffix (fid ++ ext).data = some ('.' :: t) := by
      rw [data_append, he, lastDotSuffix_append,
        lastDotSuffix_of_dotless_tail t ht]
    have hfl : fid.data.length ≠ 0 := fun hz => h2 (List.length_eq_zero.mp hz)
    have hlen : (('.' :: t) : List Char).length ≠ (fid ++ ext).data.length := by
      rw [data_append, he, List.length_append]
      omega
    have hA : extname (fid ++ ext) = ext := by
      unfold extname
      rw [hsuf]
      show (if (('.' :: t) : List Char).length = (fid ++ ext).data.length
          then ("" : String) else ⟨'.' :: t⟩) = ext
      rw [if_neg hlen, ← he, mk_data]
    refine ⟨hA, ?_⟩
    unfold parseName
    rw [hA, data_append, he]
    have harith : (fid.data ++ '.' :: t).length - (('.' :: t) : List Char).length
        = fid.data.length := by
      rw [List.length_append]; omega
    rw [harith, List.take_left, mk_data]

/-! ## Data model: Metadata Store and Content Store

The `uploads` table of database.js, one row per upload, with the columns
named by the INSERT statements of server.js (`is_text` stored as a boolean
standing for the 1/0 of the source), and the flat uploads directory as a
list of `(filename, content)` pairs (filenames on a real filesystem are
unique, and removal removes every pair carrying the name). -/

structure UploadRow where
  id : String
  filename : String
  original_name : String
  file_type : String
  file_size : Int
  content_type : String
  is_text : Bool
  expires_at : Option Int
deriving DecidableEq

structure StoreState where
  rows : List UploadRow
  files : List (String × String)
deriving DecidableEq

/-- `db.get('SELECT * FROM uploads WHERE id = ?', [id], ..)`. -/
def dbGet (st : StoreState) (id : String) : Option UploadRow :=
  st.rows.find? (fun r => r.id == id)

/-- `fs.existsSync(path.join(uploadsDir, name))`. -/
def fileExists (st : StoreState) (name : String) : Bool :=
  st.files.any (fun p => p.1 == name)

/-- `fs.readFile(path.join(uploadsDir, name), 'utf8', ..)`. -/
def fileRead (st : StoreState) (name : String) : Option String :=
  (st.files.find? (fun p => p.1 == name)).map (·.2)

/-! ## The metadata INSERT statement -/

/-- A value bound into the prepared statement. -/
inductive DbValue
  | str (v : String)
  | int (v : Int)
  | null
deriving DecidableEq

/-- `expiresAt` as a bound value: the ISO string when set, SQL NULL when
`null`. -/
def optVal (expiresAt : Option Int) : DbValue :=
  match expiresAt with
  | none => .null
  | some t => .int t

/-- The INSERT statement text shared by every upload path of server.js
(lines 247-249, 302-304, 341-343, 686-688, 741-743, 781-783). -/
def insertUploadsSql : String :=
  "INSERT INTO uploads (id, filename, original_name, file_type, file_size, content_type, is_text, expires_at) VALUES (?, ?, ?, ?, ?, ?, ?, ?)"

/-- The number of `?` placeholders of a statement. -/
def countPlaceholders (sql : String) : Nat := sql.data.count '?'

/-- Modelled from the spec: the Metadata Store lives in database.js, which is
not under src/ (server.js only requires it).  Per the spec's Metadata Store
contract a prepared-statement `stmt.run(values, cb)` reports an error to its
callback when the underlying store write fails; per SQLite positional-binding
semantics it also reports an error when the number of supplied values does
not match the statement's placeholders.  `ioFail` is the oracle for the
former; the function returns `true` iff the insert succeeded. -/
def stmtRunOk (sql : String) (vals : List DbValue) (ioFail : Bool) : Bool :=
  decide (vals.length = countPlaceholders sql) && !ioFail

theorem countPlaceholders_insert : countPlaceholders insertUploadsSql = 8 := by decide

theorem stmtRunOk_of_len8 (vals : List DbValue) (h : vals.length = 8) :
    stmtRunOk insertUploadsSql vals false = true := by
  simp [stmtRunOk, countPlaceholders_insert, h]

theorem stmtRunOk_of_len9 (vals : List DbValue) (ioFail : Bool) (h : vals.length = 9) :
    stmtRunOk insertUploadsSql vals ioFail = false := by
  simp [stmtRunOk, countPlaceholders_insert, h]

theorem stmtRunOk_ioFail (sql : String) (vals : List DbValue) :
    stmtRunOk sql vals true = false := by
  simp [stmtRunOk]

/-! ## Upload Orchestrator -/

/-- `req.file` as produced by multer: the original client filename, MIME
type, size and payload bytes. -/
structure FilePart where
  originalname : String
  mimetype : String
  size : Int
  content : String
deriving DecidableEq

/-- multer's diskStorage `filename` callback (lines 43-52 and 555-564): any
uploaded file part is written to the uploads directory as
`generateShortId() + path.extname(file.originalname)` before the route
handler body runs.  `freshId` is that `generateShortId()` result. -/
def multerWrite (st : StoreState) (freshId : String) (file? : Option FilePart) :
    StoreState :=
  match file? with
  | none => st
  | some f =>
    { st with files := st.files ++ [(freshId ++ extname f.originalname, f.content)] }

/-- Response of `POST /api/upload`. -/
inductive ApiResult
  | noFile
  | dbError
  | success (id : String) (expires_at : Option Int)
deriving DecidableEq

/-- `app.post('/api/upload')` (lines 222-277; the second variant, lines
661-716, is identical).  `freshId` is the id multer drew for the disk
filename; `expiresAt` is the value lines 236-244 computed from the request
with `parseExpirationHours` / `parseExpiration` (the Expiration Policy is
verified separately); `ioFail` says whether the metadata insert's underlying
write fails.  On insert failure the handler only logs and responds 500 —
there is no `fs.unlink` in the error callback (lines 261-265). -/
def apiUploadV1 (st0 : StoreState) (freshId : String) (file? : Option FilePart)
    (custom_name : Option String) (expiresAt : Option Int) (ioFail : Bool) :
    StoreState × ApiResult :=
  match file? with
  | none => (st0, .noFile)
  | some file =>
    let st := multerWrite st0 freshId (some file)
    let diskFilename := freshId ++ extname file.originalname
    let id := parseName diskFilename
    let isText := isTextFile file.mimetype file.originalname
    let customName := custom_name.map jsTrim
    let originalName := orElseStr customName file.originalname
    let vals : List DbValue :=
      [.str id, .str diskFilename, .str originalName, .str (extname originalName),
       .int file.size, .str file.mimetype, .int (if isText then 1 else 0),
       optVal expiresAt]
    if stmtRunOk insertUploadsSql vals ioFail then
      let row : UploadRow :=
        { id := id, filename := diskFilename, original_name := originalName,
          file_type := extname originalName, file_size := file.size,
          content_type := file.mimetype, is_text := isText,
          expires_at := expiresAt }
      ({ st with rows := st.rows ++ [row] }, .success id expiresAt)
    else
      (st, .dbError)

/-- Response of the browser-form `POST /upload`. -/
inductive FormResult
  | badRequest
  | dbErrorPage
  | redirect (id : String)
deriving DecidableEq

/-- First variant's `app.post('/upload')` (lines 280-365).  `freshIdFile` is
the id multer drew when a file part is present; `freshIdText` is the
`generateShortId()` call of the text branch (line 293).  The text branch runs
when `textContent && textContent.trim().length > 0`; its insert passes eight
values.  As in the API handler, the insert-error callbacks (lines 315-319 and
355-359) only log and render the error page, deleting nothing. -/
def postUploadV1 (st0 : StoreState) (freshIdFile freshIdText : String)
    (text_content custom_name : Option String) (file? : Option FilePart)
    (expiresAt : Option Int) (ioFail : Bool) : StoreState × FormResult :=
  let st := multerWrite st0 freshIdFile file?
  let customName := custom_name.map jsTrim
  let textPath : Bool :=
    match text_content with
    | none => false
    | some text => text != "" && decide (0 < (jsTrim text).length)
  if textPath then
    let text := text_content.getD ""
    let filename := orElseStr customName "paste.txt"
    let ext := if extname filename = "" then ".txt" else extname filename
    let diskFilename := freshIdText ++ ext
    let st1 := { st with files := st.files ++ [(diskFilename, text)] }
    let vals : List DbValue :=
      [.str freshIdText, .str diskFilename, .str filename, .str ext,
       .int (text.utf8ByteSize : Int), .str "text/plain", .int 1,
       optVal expiresAt]
    if stmtRunOk insertUploadsSql vals ioFail then
      let row : UploadRow :=
        { id := freshIdText, filename := diskFilename, original_name := filename,
          file_type := ext, file_size := (text.utf8ByteSize : Int),
          content_type := "text/plain", is_text := true, expires_at := expiresAt }
      ({ st1 with rows := st1.rows ++ [row] }, .redirect freshIdText)
    else
      (st1, .dbErrorPage)
  else
    match file? with
    | none => (st, .badRequest)
    | some file =>
      let diskFilename := freshIdFile ++ extname file.originalname
      let id := parseName diskFilename
      let isText := isTextFile file.mimetype file.originalname
      let originalName := orElseStr customName file.originalname
      let vals : List DbValue :=
        [.str id, .str diskFilename, .str originalName, .str (extname originalName),
         .int file.size, .str file.mimetype, .int (if isText then 1 else 0),
         optVal expiresAt]
      if stmtRunOk insertUploadsSql vals ioFail then
        let row : UploadRow :=
          { id := id, filename := diskFilename, original_name := originalName,
            file_type := extname originalName, file_size := file.size,
            content_type := file.mimetype, is_text := isText,
            expires_at := expiresAt }
        ({ st with rows := st.rows ++ [row] }, .redirect id)
      else
        (st, .dbErrorPage)

/-- Second variant's `app.post('/upload')` (lines 719-805).  Differences from
the first variant: `textContent` is trimmed up front (line 720) and the text
branch runs when it is truthy (nonempty); the trimmed text is what gets
written and measured; and the text-path `stmt.run` passes NINE values — the
eight of the INSERT's placeholders plus an extra `0, // is_previewable`
(line 753). -/
def postUploadV2 (st0 : StoreState) (freshIdFile freshIdText : String)
    (text_content custom_name : Option String) (file? : Option FilePart)
    (expiresAt : Option Int) (ioFail : Bool) : StoreState × FormResult :=
  let st := multerWrite st0 freshIdFile file?
  let textContent := (text_content.map jsTrim).getD ""
  let customName := custom_name.map jsTrim
  if textContent ≠ "" then
    let filename := orElseStr customName "paste.txt"
    let ext := if extname filename = "" then ".txt" else extname filename
    let diskFilename := freshIdText ++ ext
    let st1 := { st with files := st.files ++ [(diskFilename, textContent)] }
    let vals : List DbValue :=
      [.str freshIdText, .str diskFilename, .str filename, .str ext,
       .int (textContent.utf8ByteSize : Int), .str "text/plain", .int 1,
       .int 0, optVal expiresAt]
    if stmtRunOk insertUploadsSql vals ioFail then
      let row : UploadRow :=
        { id := freshIdText, filename := diskFilename, original_name := filename,
          file_type := ext, file_size := (textContent.utf8ByteSize : Int),
          content_type := "text/plain", is_text := true, expires_at := expiresAt }
      ({ st1 with rows := st1.rows ++ [row] }, .redirect freshIdText)
    else
      (st1, .dbErrorPage)
  else
    match file? with
    | none => (st, .badRequest)
    | some file =>
      let diskFilename := freshIdFile ++ extname file.originalname
      let id := parseName diskFilename
      let isText := isTextFile file.mimetype file.originalname
      let originalName := orElseStr customName file.originalname
      let vals : List DbValue :=
        [.str id, .str diskFilename, .str originalName, .str (extname originalName),
         .int file.size, .str file.mimetype, .int (if isText then 1 else 0),
         optVal expiresAt]
      if stmtRunOk insertUploadsSql vals ioFail then
        let row : UploadRow :=
          { id := id, filename := diskFilename, original_name := originalName,
            file_type := extname originalName, file_size := file.size,
            content_type := file.mimetype, is_text := isText,
            expires_at := expiresAt }
        ({ st with rows := st.rows ++ [row] }, .redirect id)
      else
        (st, .dbErrorPage)

/-! ## Retrieval Service: `GET /f/:id` (lines 367-415, identical at 807-855) -/

inductive GetFResult
  | notFound
  | expired
  | notFoundOnDisk
  | readError
  | renderText (row : UploadRow) (content : String)
  | renderFile (row : UploadRow)
deriving DecidableEq

/-- The HTTP status the handler responds with for each outcome. -/
def GetFResult.status : GetFResult → Nat
  | .notFound => 404
  | .expired => 410
  | .notFoundOnDisk => 404
  | .readError => 500
  | .renderText _ _ => 200
  | .renderFile _ => 200

/-- `app.get('/f/:id')`: look the row up, 404 when absent, 410 when the
expiration predicate holds (checked before ever touching the disk), 404 when
the backing file is missing from disk, otherwise render text or the binary
download page. -/
def getF (st : StoreState) (now : Int) (id : String) : GetFResult :=
  match dbGet st id with
  | none => .notFound
  | some row =>
    if isExpired now row.expires_at then .expired
    else if !(fileExists st row.filename) then .notFoundOnDisk
    else if row.is_text then
      match fileRead st row.filename with
      | none => .readError
      | some content => .renderText row content
    else .renderFile row

/-! ## Reaper: `cleanupExpiredFiles` (lines 161-209) -/

/-- The scan `SELECT * FROM uploads WHERE expires_at IS NOT NULL AND
expires_at <= datetime("now")`. -/
def expiredRowsQuery (now : Int) (rows : List UploadRow) : List UploadRow :=
  rows.filter (fun r => isExpired now r.expires_at)

/-- `fs.unlinkSync` of one name from the uploads directory. -/
def deleteFile (files : List (String × String)) (name : String) :
    List (String × String) :=
  files.filter (fun p => p.1 != name)

/-- One iteration of the `rows.forEach` body: delete the physical file if it
exists (absence is tolerated — the row is deleted regardless), then
`DELETE FROM uploads WHERE id = ?`. -/
def reapOne (st : StoreState) (r : UploadRow) : StoreState :=
  { rows := st.rows.filter (fun r2 => r2.id != r.id),
    files := if fileExists st r.filename then deleteFile st.files r.filename
             else st.files }

/-- One Reaper tick: scan for expired rows, then process each in turn. -/
def cleanupExpiredFiles (now : Int) (st : StoreState) : StoreState :=
  (expiredRowsQuery now st.rows).foldl reapOne st

/-! ### Characterization of a tick -/

theorem reapOne_eq (st : StoreState) (r : UploadRow) :
    reapOne st r = { rows := st.rows.filter (fun r2 => r2.id != r.id),
                     files := deleteFile st.files r.filename } := by
  unfold reapOne
  by_cases h : fileExists st r.filename = true
  · rw [if_pos h]
  · rw [if_neg h]
    have hall : ∀ p ∈ st.files, (p.1 != r.filename) = true := by
      intro p hp
      have hne : ¬(p.1 == r.filename) = true := fun hx =>
        h (List.any_eq_true.mpr ⟨p, hp, hx⟩)
      simpa using fun hx => hne (by simp [hx])
    rw [show deleteFile st.files r.filename = st.files from
      List.filter_eq_self.mpr hall]

theorem foldl_reap_rows (L : List UploadRow) (st : StoreState) :
    (L.foldl reapOne st).rows
      = st.rows.filter (fun r => L.all (fun e => r.id != e.id)) := by
  induction L generalizing st with
  | nil =>
    rw [List.foldl_nil]
    have : ∀ r ∈ st.rows, (([] : List UploadRow).all (fun e => r.id != e.id)) = true := by
      intro r _; rfl
    rw [List.filter_eq_self.mpr this]
  | cons e L ih =>
    rw [List.foldl_cons, ih, reapOne_eq]
    show (st.rows.filter fun r2 => r2.id != e.id).filter _ = _
    rw [List.filter_filter]
    apply List.filter_congr
    intro r _
    rw [List.all_cons, Bool.and_comm]

theorem foldl_reap_files (L : List UploadRow) (st : StoreState) :
    (L.foldl reapOne st).files
      = st.files.filter (fun p => L.all (fun e => p.1 != e.filename)) := by
  induction L generalizing st with
  | nil =>
    rw [List.foldl_nil]
    have : ∀ p ∈ st.files, (([] : List UploadRow).all (fun e => p.1 != e.filename)) = true := by
      intro p _; rfl
    rw [List.filter_eq_self.mpr this]
  | cons e L ih =>
    rw [List.foldl_cons, ih, reapOne_eq]
    show ((deleteFile st.files e.filename).filter _) = _
    unfold deleteFile
    rw [List.filter_filter]
    apply List.filter_congr
    intro p _
    rw [List.all_cons, Bool.and_comm]

theorem cleanup_rows (now : Int) (st : StoreState) :
    (cleanupExpiredFiles now st).rows
      = st.rows.filter
          (fun r => (expiredRowsQuery now st.rows).all (fun e => r.id != e.id)) :=
  foldl_reap_rows _ _

theorem cleanup_files (now : Int) (st : StoreState) :
    (cleanupExpiredFiles now st).files
      = st.files.filter
          (fun p => (expiredRowsQuery now st.rows).all (fun e => p.1 != e.filename)) :=
  foldl_reap_files _ _

/-! ## Claim theorems about retrieval and the Reaper -/

/-- C4: for a retrieval by id, `GET /f/:id` returns NotFound (404) when no
record exists; Expired (410) when the record's `expires_at` is present and ≤
now — the check precedes any disk access, so it holds regardless of whether
the Reaper has already removed the backing file; and NotFound (404) when the
record is live but its backing file is absent from disk. -/
theorem C4_retrieval_statuses (st : StoreState) (now : Int) (id : String) :
    (dbGet st id = none → getF st now id = .notFound) ∧
    (∀ row t, dbGet st id = some row → row.expires_at = some t → t ≤ now →
        getF st now id = .expired) ∧
    (∀ row, dbGet st id = some row → isExpired now row.expires_at = false →
        fileExists st row.filename = false → getF st now id = .notFoundOnDisk) ∧
    GetFResult.status .notFound = 404 ∧ GetFResult.status .expired = 410 ∧
    GetFResult.status .notFoundOnDisk = 404 := by
  refine ⟨?_, ?_, ?_, rfl, rfl, rfl⟩
  · intro h; unfold getF; rw [h]
  · intro row t hrow hexp hle
    unfold getF
    rw [hrow]
    have hx : isExpired now row.expires_at = true := by
      rw [hexp]; simpa [isExpired] using hle
    simp [hx]
  · intro row hrow hexp hfe
    unfold getF
    rw [hrow]
    simp [hexp, hfe]

/-- Witness for C4: a store holding an expired record `"aaaaaaaa"` whose
backing file is already gone from disk and a live record `"bbbbbbbb"` whose
file is also missing; an unknown id gives NotFound, the expired id gives
Expired even with the file gone, the live id gives NotFound-on-disk. -/
theorem C4_retrieval_statuses_witness :
    getF ⟨[⟨"aaaaaaaa", "aaaaaaaa.txt", "a.txt", ".txt", 1, "text/plain", true, some 50⟩,
           ⟨"bbbbbbbb", "bbbbbbbb.png", "b.png", ".png", 2, "image/png", false, none⟩],
          []⟩ 100 "cccccccc" = .notFound ∧
    getF ⟨[⟨"aaaaaaaa", "aaaaaaaa.txt", "a.txt", ".txt", 1, "text/plain", true, some 50⟩,
           ⟨"bbbbbbbb", "bbbbbbbb.png", "b.png", ".png", 2, "image/png", false, none⟩],
          []⟩ 100 "aaaaaaaa" = .expired ∧
    getF ⟨[⟨"aaaaaaaa", "aaaaaaaa.txt", "a.txt", ".txt", 1, "text/plain", true, some 50⟩,
           ⟨"bbbbbbbb", "bbbbbbbb.png", "b.png", ".png", 2, "image/png", false, none⟩],
          []⟩ 100 "bbbbbbbb" = .notFoundOnDisk :=
  ⟨(C4_retrieval_statuses _ 100 "cccccccc").1 (by decide),
   (C4_retrieval_statuses _ 100 "aaaaaaaa").2.1
     ⟨"aaaaaaaa", "aaaaaaaa.txt", "a.txt", ".txt", 1, "text/plain", true, some 50⟩
     50 (by decide) rfl (by decide),
   (C4_retrieval_statuses _ 100 "bbbbbbbb").2.2.1
     ⟨"bbbbbbbb", "bbbbbbbb.png", "b.png", ".png", 2, "image/png", false, none⟩
     (by decide) rfl rfl⟩

/-- C6: on a Reaper tick, every record satisfying the expiration predicate
has its id removed from the Metadata Store and its filename removed from the
Content Store — with no assumption that the file was present, so an
already-absent file is tolerated and the row is still removed — while no
record whose predicate is false is deleted.  The hypothesis says ids are
unique across rows, the table's primary-key invariant. -/
theorem C6_reaper_tick (now : Int) (st : StoreState)
    (hids : ∀ a ∈ st.rows, ∀ b ∈ st.rows, a.id = b.id → a = b) :
    (∀ r ∈ st.rows, isExpired now r.expires_at = true →
        (∀ r2 ∈ (cleanupExpiredFiles now st).rows, r2.id ≠ r.id) ∧
        (∀ p ∈ (cleanupExpiredFiles now st).files, p.1 ≠ r.filename)) ∧
    (∀ r ∈ st.rows, isExpired now r.expires_at = false →
        r ∈ (cleanupExpiredFiles now st).rows) := by
  constructor
  · intro r hr hexp
    have hrq : r ∈ expiredRowsQuery now st.rows := List.mem_filter.mpr ⟨hr, hexp⟩
    constructor
    · intro r2 hr2
      rw [cleanup_rows] at hr2
      rcases List.mem_filter.mp hr2 with ⟨_, hall⟩
      have hb := List.all_eq_true.mp hall r hrq
      intro hcontra
      rw [hcontra] at hb
      simp at hb
    · intro p hp
      rw [cleanup_files] at hp
      rcases List.mem_filter.mp hp with ⟨_, hall⟩
      have hb := List.all_eq_true.mp hall r hrq
      intro hcontra
      rw [hcontra] at hb
      simp at hb
  · intro r hr hexp
    rw [cleanup_rows]
    refine List.mem_filter.mpr ⟨hr, ?_⟩
    apply List.all_eq_true.mpr
    intro e he
    rcases List.mem_filter.mp he with ⟨herows, heexp⟩
    by_contra hbne
    have hid : r.id = e.id := by simpa using hbne
    have hre : r = e := hids r hr e herows hid
    rw [hre, heexp] at hexp
    cases hexp

/-- Witness for C6, the spec's reaping scenario: record `"aaaaaaaa"` is past
its expiry and its backing file has already been removed from disk by hand;
after a tick at `now = 100` its row is gone anyway, while the live record
`"bbbbbbbb"` and its file survive. -/
theorem C6_reaper_tick_witness :
    (∀ r2 ∈ (cleanupExpiredFiles 100
        ⟨[⟨"aaaaaaaa", "aaaaaaaa.txt", "a.txt", ".txt", 1, "text/plain", true, some 50⟩,
          ⟨"bbbbbbbb", "bbbbbbbb.txt", "b.txt", ".txt", 2, "text/plain", true, none⟩],
         [("bbbbbbbb.txt", "hi")]⟩).rows, r2.id ≠ "aaaaaaaa") ∧
    (∀ p ∈ (cleanupExpiredFiles 100
        ⟨[⟨"aaaaaaaa", "aaaaaaaa.txt", "a.txt", ".txt", 1, "text/plain", true, some 50⟩,
          ⟨"bbbbbbbb", "bbbbbbbb.txt", "b.txt", ".txt", 2, "text/plain", true, none⟩],
         [("bbbbbbbb.txt", "hi")]⟩).files, p.1 ≠ "aaaaaaaa.txt") ∧
    (⟨"bbbbbbbb", "bbbbbbbb.txt", "b.txt", ".txt", 2, "text/plain", true, none⟩ : UploadRow)
      ∈ (cleanupExpiredFiles 100
        ⟨[⟨"aaaaaaaa", "aaaaaaaa.txt", "a.txt", ".txt", 1, "text/plain", true, some 50⟩,
          ⟨"bbbbbbbb", "bbbbbbbb.txt", "b.txt", ".txt", 2, "text/plain", true, none⟩],
         [("bbbbbbbb.txt", "hi")]⟩).rows :=
  ⟨((C6_reaper_tick 100 _ (by decide)).1
      ⟨"aaaaaaaa", "aaaaaaaa.txt", "a.txt", ".txt", 1, "text/plain", true, some 50⟩
      (by decide) (by decide)).1,
   ((C6_reaper_tick 100 _ (by decide)).1
      ⟨"aaaaaaaa", "aaaaaaaa.txt", "a.txt", ".txt", 1, "text/plain", true, some 50⟩
      (by decide) (by decide)).2,
   (C6_reaper_tick 100 _ (by decide)).2
      ⟨"bbbbbbbb", "bbbbbbbb.txt", "b.txt", ".txt", 2, "text/plain", true, none⟩
      (by decide) (by decide)⟩

/-- C7: the Reaper tick is idempotent — a second tick at the same instant
(no new records crossing their expiration time in between) finds nothing
expired and changes neither store. -/
theorem C7_reaper_idempotent (now : Int) (st : StoreState) :
    cleanupExpiredFiles now (cleanupExpiredFiles now st)
      = cleanupExpiredFiles now st := by
  have hq : expiredRowsQuery now (cleanupExpiredFiles now st).rows = [] := by
    rw [cleanup_rows]
    unfold expiredRowsQuery
    rw [List.filter_filter]
    apply List.filter_eq_nil_iff.mpr
    intro r hr hcond
    rcases Bool.and_eq_true_iff.mp hcond with ⟨hexp, hall2⟩
    have hmem : r ∈ expiredRowsQuery now st.rows := List.mem_filter.mpr ⟨hr, hexp⟩
    have hb := List.all_eq_true.mp hall2 r hmem
    simp at hb
  have hdef : cleanupExpiredFiles now (cleanupExpiredFiles now st)
      = (expiredRowsQuery now (cleanupExpiredFiles now st).rows).foldl reapOne
          (cleanupExpiredFiles now st) := rfl
  rw [hdef, hq, List.foldl_nil]

/-! ## Claim theorems about the upload orchestrator -/

theorem multerWrite_rows (st : StoreState) (freshId : String)
    (file? : Option FilePart) : (multerWrite st freshId file?).rows = st.rows := by
  cases file? <;> rfl

theorem length_pos_of_ne_empty (s : String) (h : s ≠ "") : 0 < s.length := by
  rcases s with ⟨l⟩
  cases l with
  | nil => exact absurd rfl h
  | cons c cs => simp [String.length]

/-- C1 counterexample: a concrete API upload whose Content Store write
succeeded and whose metadata insert then fails.  The handler answers with
the database error, yet the just-written file `abc12345.png` is still in the
uploads directory — the claimed compensating delete does not happen. -/
theorem C1_counterexample :
    (apiUploadV1 ⟨[], []⟩ "abc12345" (some ⟨"pic.png", "image/png", 4, "DATA"⟩)
        none none true).2 = .dbError ∧
    ("abc12345.png", "DATA")
      ∈ (apiUploadV1 ⟨[], []⟩ "abc12345" (some ⟨"pic.png", "image/png", 4, "DATA"⟩)
          none none true).1.files := by decide

/-- C1 amended: when the metadata insert fails on either cited path (the API
file upload, or the browser-form text paste), the handler returns the storage
error *without* deleting the just-written content file, which remains on disk
as an orphan; no row is added. -/
theorem C1_no_cleanup_on_insert_failure (st : StoreState) (freshId fidT : String)
    (file : FilePart) (custom : Option String) (expiresAt : Option Int)
    (text : String) (file? : Option FilePart)
    (h1 : text ≠ "") (h2 : 0 < (jsTrim text).length) :
    ((apiUploadV1 st freshId (some file) custom expiresAt true).2 = .dbError ∧
     (freshId ++ extname file.originalname, file.content)
        ∈ (apiUploadV1 st freshId (some file) custom expiresAt true).1.files ∧
     (apiUploadV1 st freshId (some file) custom expiresAt true).1.rows = st.rows) ∧
    ((postUploadV1 st freshId fidT (some text) custom file? expiresAt true).2
        = .dbErrorPage ∧
     (∃ ext, (fidT ++ ext, text)
        ∈ (postUploadV1 st freshId fidT (some text) custom file? expiresAt true).1.files) ∧
     (postUploadV1 st freshId fidT (some text) custom file? expiresAt true).1.rows
        = st.rows) := by
  have hrun : ∀ vals : List DbValue, stmtRunOk insertUploadsSql vals true = false := by
    intro vals; simp [stmtRunOk]
  constructor
  · refine ⟨?_, ?_, ?_⟩ <;>
      simp [apiUploadV1, hrun, multerWrite]
  · have hcond2 : (text != "" && decide (0 < (jsTrim text).length)) = true := by
      simp [h1, h2]
    refine ⟨?_, ?_, ?_⟩
    · simp only [postUploadV1, hrun]
      rw [if_pos hcond2]
      rfl
    · simp only [postUploadV1, hrun]
      rw [if_pos hcond2]
      refine ⟨if extname (orElseStr (Option.map jsTrim custom) "paste.txt") = ""
          then ".txt" else extname (orElseStr (Option.map jsTrim custom) "paste.txt"), ?_⟩
      simp
    · simp only [postUploadV1, hrun]
      rw [if_pos hcond2]
      simp [multerWrite_rows]

/-- Witness for C1's amended statement at a concrete failing upload. -/
theorem C1_no_cleanup_on_insert_failure_witness :
    ((apiUploadV1 ⟨[], []⟩ "abc12345" (some ⟨"pic.png", "image/png", 4, "DATA"⟩)
        none none true).2 = .dbError ∧
     ("abc12345" ++ extname "pic.png", "DATA")
        ∈ (apiUploadV1 ⟨[], []⟩ "abc12345" (some ⟨"pic.png", "image/png", 4, "DATA"⟩)
            none none true).1.files ∧
     (apiUploadV1 ⟨[], []⟩ "abc12345" (some ⟨"pic.png", "image/png", 4, "DATA"⟩)
        none none true).1.rows = []) ∧
    ((postUploadV1 ⟨[], []⟩ "abc12345" "zyxw9876" (some "hello") none none none true).2
        = .dbErrorPage ∧
     (∃ ext, ("zyxw9876" ++ ext, "hello")
        ∈ (postUploadV1 ⟨[], []⟩ "abc12345" "zyxw9876" (some "hello") none none none
            true).1.files) ∧
     (postUploadV1 ⟨[], []⟩ "abc12345" "zyxw9876" (some "hello") none none none
        true).1.rows = []) :=
  C1_no_cleanup_on_insert_failure ⟨[], []⟩ "abc12345" "zyxw9876"
    ⟨"pic.png", "image/png", 4, "DATA"⟩ none none "hello" none
    (by decide) (by decide)

/-- C9 counterexample: a successful API upload of `pic.png` under
`custom_name=report.pdf`.  The stored record's on-disk name is
`abc12345.png` (id + extension of the *original* name, fixed by multer
before the handler saw `custom_name`), while its `file_type` column is
`.pdf` (derived from the display name), so `stored_name ≠ id + extension`. -/
theorem C9_counterexample :
    (apiUploadV1 ⟨[], []⟩ "abc12345" (some ⟨"pic.png", "image/png", 4, "D"⟩)
        (some "report.pdf") none false).1.rows
      = [{ id := "abc12345", filename := "abc12345.png",
           original_name := "report.pdf", file_type := ".pdf", file_size := 4,
           content_type := "image/png", is_text := false, expires_at := none }] ∧
    "abc12345.png" ≠ "abc12345" ++ ".pdf" := by decide

/-- C9 amended: for every successful API file upload the stored record's
`filename` equals its id concatenated with the extension of the uploaded
file's *original* name, while the `file_type` column is the extension of the
display name (custom name when supplied, original name otherwise); the two
extensions differ exactly when a custom name with a different extension is
given.  `freshId` dotless and nonempty is what `generateShortId` always
produces. -/
theorem C9_stored_name_from_original_extension (st : StoreState)
    (freshId : String) (file : FilePart) (custom : Option String)
    (expiresAt : Option Int)
    (h1 : ('.' : Char) ∉ freshId.data) (h2 : freshId.data ≠ []) :
    ∃ row : UploadRow,
      apiUploadV1 st freshId (some file) custom expiresAt false
        = ({ rows := st.rows ++ [row],
             files := st.files ++ [(freshId ++ extname file.originalname, file.content)] },
           .success freshId expiresAt)
      ∧ row.id = freshId
      ∧ row.filename = row.id ++ extname file.originalname
      ∧ row.file_type = extname (orElseStr (custom.map jsTrim) file.originalname) := by
  have hname : parseName (freshId ++ extname file.originalname) = freshId :=
    (extname_parseName_append freshId (extname file.originalname) h1 h2
      (extname_shape file.originalname)).2
  refine ⟨{ id := freshId,
            filename := freshId ++ extname file.originalname,
            original_name := orElseStr (custom.map jsTrim) file.originalname,
            file_type := extname (orElseStr (custom.map jsTrim) file.originalname),
            file_size := file.size,
            content_type := file.mimetype,
            is_text := isTextFile file.mimetype file.originalname,
            expires_at := expiresAt }, ?_, rfl, rfl, rfl⟩
  have hTrue : stmtRunOk insertUploadsSql
      [DbValue.str freshId,
       DbValue.str (freshId ++ extname file.originalname),
       DbValue.str (orElseStr (Option.map jsTrim custom) file.originalname),
       DbValue.str (extname (orElseStr (Option.map jsTrim custom) file.originalname)),
       DbValue.int file.size,
       DbValue.str file.mimetype,
       DbValue.int (if isTextFile file.mimetype file.originalname then 1 else 0),
       optVal expiresAt] false = true := stmtRunOk_of_len8 _ rfl
  simp only [apiUploadV1, multerWrite, hname, hTrue, if_true]

/-- Witness for C9's amended statement: the counterexample upload, with the
record's fields exhibited. -/
theorem C9_stored_name_from_original_extension_witness :
    ∃ row : UploadRow,
      apiUploadV1 ⟨[], []⟩ "abc12345" (some ⟨"pic.png", "image/png", 4, "D"⟩)
          (some "report.pdf") none false
        = ({ rows := [] ++ [row],
             files := [] ++ [("abc12345" ++ extname "pic.png", "D")] },
           .success "abc12345" none)
      ∧ row.id = "abc12345"
      ∧ row.filename = row.id ++ extname "pic.png"
      ∧ row.file_type = extname (orElseStr ((some "report.pdf").map jsTrim) "pic.png") :=
  C9_stored_name_from_original_extension ⟨[], []⟩ "abc12345"
    ⟨"pic.png", "image/png", 4, "D"⟩ (some "report.pdf") none
    (by decide) (by decide)

/-- C8 counterexample: a second-variant browser-form upload carrying both the
text `"hello"` and a file part.  The text branch is taken, but its insert
fails (nine values against eight placeholders), so NO stored upload is
created from the text — the rows stay empty and the request ends on the
database-error page, refuting the claim for this request. -/
theorem C8_counterexample :
    postUploadV2 ⟨[], []⟩ "ffffffff" "tttttttt" (some "hello") none
        (some ⟨"pic.png", "image/png", 4, "D"⟩) none false
      = (⟨[], [("ffffffff.png", "D"), ("tttttttt.txt", "hello")]⟩, .dbErrorPage) ∧
    (postUploadV2 ⟨[], []⟩ "ffffffff" "tttttttt" (some "hello") none
        (some ⟨"pic.png", "image/png", 4, "D"⟩) none false).1.rows = [] := by
  constructor <;> decide

/-- C8 amended: when a browser-form upload carries both a non-blank
text-content field and a file part, the text branch wins in both variants —
the file part never becomes the payload.  In the first variant the stored
upload is created from the text as a `text/plain` record whose backing file
holds the text (the inserted row being exactly the one of a
file-part-free request); in the second variant the text path is likewise
taken but its insert fails on the extra ninth value, so no record is created
at all. -/
theorem C8_text_wins (st : StoreState) (fidF fidT : String) (text : String)
    (custom : Option String) (f : FilePart) (expiresAt : Option Int)
    (h : jsTrim text ≠ "") :
    (∃ row : UploadRow,
      postUploadV1 st fidF fidT (some text) custom (some f) expiresAt false
        = ({ rows := st.rows ++ [row],
             files := st.files ++ [(fidF ++ extname f.originalname, f.content),
                                   (row.filename, text)] },
           .redirect fidT)
      ∧ row.id = fidT ∧ row.content_type = "text/plain" ∧ row.is_text = true
      ∧ (postUploadV1 st fidF fidT (some text) custom none expiresAt false).1.rows
          = st.rows ++ [row]) ∧
    ((postUploadV2 st fidF fidT (some text) custom (some f) expiresAt false).2
        = .dbErrorPage ∧
     (postUploadV2 st fidF fidT (some text) custom (some f) expiresAt false).1.rows
        = st.rows) := by
  have htne : text ≠ "" := fun hz => h (by rw [hz]; rfl)
  have hlen : 0 < (jsTrim text).length := length_pos_of_ne_empty _ h
  have hcond1 : (text != "" && decide (0 < (jsTrim text).length)) = true := by
    simp [htne, hlen]
  have hrun8 : ∀ vals : List DbValue, vals.length = 8 →
      stmtRunOk insertUploadsSql vals false = true := stmtRunOk_of_len8
  have hrun9 : ∀ vals : List DbValue, vals.length = 9 →
      stmtRunOk insertUploadsSql vals false = false :=
    fun vals => stmtRunOk_of_len9 vals false
  constructor
  · refine ⟨{ id := fidT,
              filename := fidT ++ (if extname (orElseStr (Option.map jsTrim custom) "paste.txt") = ""
                  then ".txt" else extname (orElseStr (Option.map jsTrim custom) "paste.txt")),
              original_name := orElseStr (Option.map jsTrim custom) "paste.txt",
              file_type := (if extname (orElseStr (Option.map jsTrim custom) "paste.txt") = ""
                  then ".txt" else extname (orElseStr (Option.map jsTrim custom) "paste.txt")),
              file_size := (text.utf8ByteSize : Int),
              content_type := "text/plain", is_text := true,
              expires_at := expiresAt }, ?_, rfl, rfl, rfl, ?_⟩ <;>
    · have hok8 : stmtRunOk insertUploadsSql
          [DbValue.str fidT,
           DbValue.str (fidT ++ (if extname (orElseStr (Option.map jsTrim custom) "paste.txt") = ""
               then ".txt" else extname (orElseStr (Option.map jsTrim custom) "paste.txt"))),
           DbValue.str (orElseStr (Option.map jsTrim custom) "paste.txt"),
           DbValue.str (if extname (orElseStr (Option.map jsTrim custom) "paste.txt") = ""
               then ".txt" else extname (orElseStr (Option.map jsTrim custom) "paste.txt")),
           DbValue.int (text.utf8ByteSize : Int), DbValue.str "text/plain",
           DbValue.int 1, optVal expiresAt] false = true := hrun8 _ rfl
      simp only [postUploadV1, multerWrite, Option.map_some', Option.getD_some]
      rw [if_pos hcond1, if_pos hok8]
      try simp [List.append_assoc]
  · have hfail : stmtRunOk insertUploadsSql
        [DbValue.str fidT,
         DbValue.str (fidT ++ (if extname (orElseStr (Option.map jsTrim custom) "paste.txt") = ""
             then ".txt" else extname (orElseStr (Option.map jsTrim custom) "paste.txt"))),
         DbValue.str (orElseStr (Option.map jsTrim custom) "paste.txt"),
         DbValue.str (if extname (orElseStr (Option.map jsTrim custom) "paste.txt") = ""
             then ".txt" else extname (orElseStr (Option.map jsTrim custom) "paste.txt")),
         DbValue.int ((jsTrim text).utf8ByteSize : Int), DbValue.str "text/plain",
         DbValue.int 1, DbValue.int 0, optVal expiresAt] false = false := hrun9 _ rfl
    constructor
    · simp only [postUploadV2, multerWrite, Option.map_some', Option.getD_some]
      rw [if_pos h, if_neg (by rw [hfail]; simp)]
    · simp only [postUploadV2, multerWrite, Option.map_some', Option.getD_some]
      rw [if_pos h, if_neg (by rw [hfail]; simp)]

/-- Witness for C8's amended statement at the counterexample's request. -/
theorem C8_text_wins_witness :
    (∃ row : UploadRow,
      postUploadV1 ⟨[], []⟩ "ffffffff" "tttttttt" (some "hello") none
          (some ⟨"pic.png", "image/png", 4, "D"⟩) none false
        = ({ rows := [] ++ [row],
             files := [] ++ [("ffffffff" ++ extname "pic.png", "D"),
                             (row.filename, "hello")] },
           .redirect "tttttttt")
      ∧ row.id = "tttttttt" ∧ row.content_type = "text/plain" ∧ row.is_text = true
      ∧ (postUploadV1 ⟨[], []⟩ "ffffffff" "tttttttt" (some "hello") none none none
          false).1.rows = [] ++ [row]) ∧
    ((postUploadV2 ⟨[], []⟩ "ffffffff" "tttttttt" (some "hello") none
        (some ⟨"pic.png", "image/png", 4, "D"⟩) none false).2 = .dbErrorPage ∧
     (postUploadV2 ⟨[], []⟩ "ffffffff" "tttttttt" (some "hello") none
        (some ⟨"pic.png", "image/png", 4, "D"⟩) none false).1.rows = []) :=
  C8_text_wins ⟨[], []⟩ "ffffffff" "tttttttt" "hello" none
    ⟨"pic.png", "image/png", 4, "D"⟩ none (by decide)

/-- C10: in the second variant, every browser-form text-content upload dies
at the metadata insert: the text path's `stmt.run` supplies nine values (the
extra `is_previewable` zero) against the INSERT's eight placeholders, so the
statement reports an error — even with a perfectly healthy store
(`ioFail = false`) — and the handler renders the database-error page.  The
text file has already been written to disk and no metadata row exists for
it. -/
theorem C10_v2_text_insert_arity (st : StoreState) (fidF fidT : String)
    (text : String) (custom : Option String) (file? : Option FilePart)
    (expiresAt : Option Int) (h : jsTrim text ≠ "") :
    ∃ diskName,
      postUploadV2 st fidF fidT (some text) custom file? expiresAt false
        = ({ rows := st.rows,
             files := (multerWrite st fidF file?).files ++ [(diskName, jsTrim text)] },
           .dbErrorPage) := by
  refine ⟨fidT ++ (if extname (orElseStr (Option.map jsTrim custom) "paste.txt") = ""
      then ".txt" else extname (orElseStr (Option.map jsTrim custom) "paste.txt")), ?_⟩
  have hfail : stmtRunOk insertUploadsSql
      [DbValue.str fidT,
       DbValue.str (fidT ++ (if extname (orElseStr (Option.map jsTrim custom) "paste.txt") = ""
           then ".txt" else extname (orElseStr (Option.map jsTrim custom) "paste.txt"))),
       DbValue.str (orElseStr (Option.map jsTrim custom) "paste.txt"),
       DbValue.str (if extname (orElseStr (Option.map jsTrim custom) "paste.txt") = ""
           then ".txt" else extname (orElseStr (Option.map jsTrim custom) "paste.txt")),
       DbValue.int ((jsTrim text).utf8ByteSize : Int), DbValue.str "text/plain",
       DbValue.int 1, DbValue.int 0, optVal expiresAt] false = false :=
    stmtRunOk_of_len9 _ false rfl
  simp only [postUploadV2, Option.map_some', Option.getD_some]
  rw [if_pos h, if_neg (by rw [hfail]; simp)]
  rw [show ({ rows := (multerWrite st fidF file?).rows,
              files := (multerWrite st fidF file?).files
                ++ [(fidT ++ (if extname (orElseStr (Option.map jsTrim custom) "paste.txt") = ""
                     then ".txt" else extname (orElseStr (Option.map jsTrim custom) "paste.txt")),
                     jsTrim text)] } : StoreState).rows = st.rows
      from multerWrite_rows st fidF file?]

/-- Witness for C10 at a concrete paste. -/
theorem C10_v2_text_insert_arity_witness :
    ∃ diskName,
      postUploadV2 ⟨[], []⟩ "ffffffff" "tttttttt" (some "hello") none none none false
        = ({ rows := [],
             files := (multerWrite ⟨[], []⟩ "ffffffff" none).files
               ++ [(diskName, jsTrim "hello")] },
           .dbErrorPage) :=
  C10_v2_text_insert_arity ⟨[], []⟩ "ffffffff" "tttttttt" "hello" none none none
    (by decide)

end Splatbin
